import Mathlib

/-
Verification development for the treasure-trove inventory ledger
(src/src/main.rs).  The submission workflow (`handle_submit`), the
container resolver (`choose_container`), the batch insert
(`save_items_tx`), the extraction fallback around `llm_parse`, the
normalizer (`normalize_optional`) and the label formatter
(`print_zebra_label`) are shallowly embedded below.

Modelling decisions, all read off the source:
* The SQLite database is a pair of row lists plus the AUTOINCREMENT
  counters (timestamps, which no claim touches, are omitted).
* The natural-language structuring capability (Ollama) is an oracle
  `LlmOutcome`: either the whole call fails (unreachable, timeout, or a
  response that serde cannot parse as `ParsedInventory`) or it succeeds
  with the parsed item list.  serde performs no validation beyond shape,
  so a well-formed response with quantity 0 or an empty name parses.
* A failing `INSERT` inside `save_items_tx` is an oracle `failAt`: the
  insert of the item at that index errors, earlier inserts succeeded.
  `handle_submit` logs such an error and still calls `tx.commit()`
  (main.rs lines 278-282), which the model reflects by keeping the
  partially updated database as the committed state.
* Rust `str::trim` / `char::is_whitespace` are modelled with
  `Char.isWhitespace`; every string of the claims is ASCII, where the
  two coincide.
-/

/-- Extractor output, main.rs `ParsedItem` (quantity is an `i32`). -/
structure ParsedItem where
  name : String
  quantity : Int
  deriving DecidableEq, Repr

/-- main.rs `Item`: an assembled or persisted inventory row. -/
structure Item where
  id : Int
  name : String
  quantity : Int
  container_id : Option Int
  location : Option String
  deriving DecidableEq, Repr

/-- One row of the `containers` table (main.rs `Container`). -/
structure ContainerRow where
  id : Int
  name : String
  kind : Option String
  deriving DecidableEq, Repr

/-- The SQLite file `inventory.db`: both tables plus the AUTOINCREMENT
counters used to assign fresh ids. -/
structure Db where
  containers : List ContainerRow
  items : List Item
  nextContainerId : Int
  nextItemId : Int
  deriving DecidableEq, Repr

/-- A freshly initialised database (`init_db` creates empty tables;
SQLite AUTOINCREMENT starts at 1). -/
def emptyDb : Db := ⟨[], [], 1, 1⟩

/-- main.rs `InputForm`: the deserialized form fields of a submission. -/
structure InputForm where
  text : String
  container_select : Option String
  container_new : Option String
  location : Option String
  deriving DecidableEq, Repr

/-- Database errors relevant to the embedded code paths: rusqlite's
`QueryReturnedNoRows` from `query_row`, and a failing `INSERT`. -/
inductive DbError where
  | queryReturnedNoRows
  | insertFailed
  deriving DecidableEq, Repr

/-- Oracle for one call to the structuring capability: `failure` covers
an unreachable capability, a timeout, and a response that fails to
parse as `ParsedInventory`; `success` carries the parsed items of a
well-formed response (serde applies no further validation). -/
inductive LlmOutcome where
  | failure
  | success (items : List ParsedItem)
  deriving DecidableEq, Repr

/-- Rust `str::trim`: drop leading and trailing whitespace. -/
def rust_trim (s : String) : String :=
  String.mk (((s.data.dropWhile Char.isWhitespace).reverse.dropWhile
    Char.isWhitespace).reverse)

/-- main.rs `normalize_optional`: trim, and turn empty or
whitespace-only input into `none`. -/
def normalize_optional (opt : Option String) : Option String :=
  opt.bind fun s =>
    let trimmed := rust_trim s
    if trimmed = "" then none else some trimmed

/-- Value of a digit run, `none` if a non-digit occurs. -/
def digitsToNat : List Char → Option Nat
  | [] => some 0
  | c :: rest =>
      if c.isDigit then
        (digitsToNat rest).map fun n => (c.toNat - 48) * 10 ^ rest.length + n
      else none

/-- Rust `str::parse::<i64>()`: optional sign, at least one ASCII
digit, value within the `i64` range; anything else is `none`. -/
def parse_i64 (s : String) : Option Int :=
  match s.data with
  | [] => none
  | c :: rest =>
      let signed : Bool × List Char :=
        if c = '-' then (true, rest)
        else if c = '+' then (false, rest) else (false, c :: rest)
      match signed.2 with
      | [] => none
      | ds =>
          match digitsToNat ds with
          | none => none
          | some n =>
              if signed.1 then
                if n ≤ 2 ^ 63 then some (-(n : Int)) else none
              else
                if n ≤ 2 ^ 63 - 1 then some (n : Int) else none

/-- main.rs lines 235-245: the form's `container_select` string is
trimmed; empty becomes `none`, and a string that does not parse as an
`i64` silently becomes `none` as well. -/
def parse_container_select (sel : Option String) : Option Int :=
  sel.bind fun s =>
    let t := rust_trim s
    if t = "" then none else parse_i64 t

/-- main.rs `llm_parse` against the capability oracle: either the call
errors or the serde-parsed items are returned verbatim. -/
def llm_parse : LlmOutcome → Except Unit (List ParsedItem)
  | .failure => .error ()
  | .success items => .ok items

/-- Extraction step of `handle_submit` (main.rs lines 170-179): use the
capability result, or fall back to one item made of the trimmed raw
text with quantity 1. -/
def extract (raw : String) (llm : LlmOutcome) : List ParsedItem :=
  match llm_parse llm with
  | .ok p => p
  | .error _ => [{ name := rust_trim raw, quantity := 1 }]

/-- SQL `SELECT id FROM containers WHERE name = ?1` (first match; with
the UNIQUE constraint at most one row qualifies). -/
def lookupIdByName : List ContainerRow → String → Option Int
  | [], _ => none
  | c :: rest, n => if c.name = n then some c.id else lookupIdByName rest n

/-- SQL `SELECT name FROM containers WHERE id = ?1`. -/
def lookupNameById : List ContainerRow → Int → Option String
  | [], _ => none
  | c :: rest, i => if c.id = i then some c.name else lookupNameById rest i

/-- Number of container rows carrying a given name. -/
def countNamed : List ContainerRow → String → Nat
  | [], _ => 0
  | c :: rest, n => (if c.name = n then 1 else 0) + countNamed rest n

/-- SQL `INSERT OR IGNORE INTO containers (name) VALUES (?1)`: a row
with the name already present (UNIQUE constraint) leaves the table
unchanged, otherwise a fresh row is appended. -/
def insertOrIgnoreContainer (db : Db) (n : String) : Db :=
  if ∃ c ∈ db.containers, c.name = n then db
  else
    { db with
        containers := db.containers ++ [⟨db.nextContainerId, n, none⟩]
        nextContainerId := db.nextContainerId + 1 }

/-- main.rs `choose_container`: a normalized new name takes the first
branch (insert-or-ignore, then read the id back); otherwise a selected
id is looked up (`query_row` errors with `QueryReturnedNoRows` when the
id is absent); otherwise no container.  The returned `Db` is the
transaction state after the call. -/
def choose_container (db : Db) (container_select : Option Int)
    (container_new : Option String) :
    Db × Except DbError (Option Int × Option String) :=
  match normalize_optional container_new with
  | some new_name =>
      let db1 := insertOrIgnoreContainer db new_name
      match lookupIdByName db1.containers new_name with
      | some id => (db1, .ok (some id, some new_name))
      | none => (db1, .error .queryReturnedNoRows)
  | none =>
      match container_select with
      | some id =>
          match lookupNameById db.containers id with
          | some n => (db, .ok (some id, some n))
          | none => (db, .error .queryReturnedNoRows)
      | none => (db, .ok (none, none))

/-- Assembly step of `handle_submit` (main.rs lines 267-276): every
parsed item becomes an `Item` carrying the same resolved container id
and location; the id is 0 until storage assigns one. -/
def assemble (parsed : List ParsedItem) (container_id : Option Int)
    (location : Option String) : List Item :=
  parsed.map fun pi =>
    { id := 0, name := pi.name, quantity := pi.quantity
      container_id := container_id, location := location }

/-- One `INSERT INTO items ...`: append the row with a fresh id. -/
def insertItem (db : Db) (it : Item) : Db :=
  { db with
      items := db.items ++ [{ it with id := db.nextItemId }]
      nextItemId := db.nextItemId + 1 }

/-- Row-by-row loop of `save_items_tx`; `failAt` is the index whose
insert errors (earlier rows were already inserted and stay in the
transaction, exactly as in SQLite). -/
def save_items_tx_aux (db : Db) (items : List Item) (idx : Nat)
    (failAt : Option Nat) : Db × Except DbError Unit :=
  match items with
  | [] => (db, .ok ())
  | it :: rest =>
      if failAt = some idx then (db, .error .insertFailed)
      else save_items_tx_aux (insertItem db it) rest (idx + 1) failAt

/-- main.rs `save_items_tx`: insert all items in order, stopping at the
first failing insert. -/
def save_items_tx (db : Db) (items : List Item) (failAt : Option Nat) :
    Db × Except DbError Unit :=
  save_items_tx_aux db items 0 failAt

/-- Whether an `Except` is an error. -/
def exceptFailed : Except DbError Unit → Bool
  | .ok _ => false
  | .error _ => true

/-- main.rs lines 257-264: a resolver error is logged and replaced by
(no id, no name); the Boolean records that the warning was printed. -/
def resolve_or_loose (r : Except DbError (Option Int × Option String)) :
    Option Int × Option String × Bool :=
  match r with
  | .ok pair => (pair.1, pair.2, false)
  | .error _ => (none, none, true)

/-- main.rs `html_escape`, per character.  The Rust original chains
`replace('&', "&amp;")`, `replace('<', "&lt;")`, `replace('>', "&gt;")`;
since no replacement string contains a character replaced by a later
pass on its own output position, the sequential replaces equal this
single pass. -/
def html_escape_char (c : Char) : String :=
  if c = '&' then "&amp;"
  else if c = '<' then "&lt;"
  else if c = '>' then "&gt;"
  else String.singleton c

/-- main.rs `html_escape`. -/
def html_escape (s : String) : String :=
  String.join (s.data.map html_escape_char)

/-- One `<li>` line of the response page (main.rs lines 296-304). -/
def item_line (item : Item) : String :=
  let base := toString item.quantity ++ " × " ++ html_escape item.name
  let base :=
    match item.container_id with
    | some cid => base ++ " — Container ID: " ++ toString cid
    | none => base
  match item.location with
  | some loc => base ++ " — Location: " ++ html_escape loc
  | none => base

/-- The body returned by `handle_submit` (main.rs lines 289-315).  It
is built from the assembled in-memory items alone. -/
def render_submit_response (items : List Item) : String :=
  "<!doctype html><html><head><meta charset=\"utf-8\"><title>Inventory Saved</title>"
    ++ "<meta name=\"viewport\" content=\"width=device-width, initial-scale=1.0\"></head><body style=\"font-family: sans-serif; padding: 1rem;\">"
    ++ "<h1>Parsed Items</h1><ul>"
    ++ String.join (items.map fun it => "<li>" ++ item_line it ++ "</li>")
    ++ "</ul>" ++ "<p><a href=\"/\">Back</a></p>" ++ "</body></html>"

/-- Everything observable about one run of `handle_submit`: the
committed database, the assembled in-memory items, the resolved
container name, whether the two logged error branches fired, and the
response body handed to the caller. -/
structure SubmitOutcome where
  db : Db
  items : List Item
  container_name : Option String
  resolveFailed : Bool
  saveFailed : Bool
  html : String
  deriving DecidableEq, Repr

/-- main.rs `handle_submit` (lines 169-316): extract (with fallback),
parse the selection, normalize the location, resolve the container
inside the transaction, assemble, insert, and always commit — a failed
insert is only logged (lines 278-282), the commit on line 282 still
runs, so the partially updated database is the committed state. -/
def handle_submit (db : Db) (input : InputForm) (llm : LlmOutcome)
    (failAt : Option Nat) : SubmitOutcome :=
  let parsed_items := extract input.text llm
  let location := normalize_optional input.location
  let resolved :=
    choose_container db (parse_container_select input.container_select)
      input.container_new
  let r := resolve_or_loose resolved.2
  let items := assemble parsed_items r.1 location
  let saved := save_items_tx resolved.1 items failAt
  { db := saved.1
    items := items
    container_name := r.2.1
    resolveFailed := r.2.2
    saveFailed := exceptFailed saved.2
    html := render_submit_response items }

/-- One line record of the label body (spec 4.5): vertical offset plus
the `^FD` payload text. -/
structure LabelLine where
  y_offset : Int
  text : String
  deriving DecidableEq, Repr

/-- Loop of `print_zebra_label` (main.rs lines 561-568): one line per
item in order, the payload is quantity, then " x ", then the name, and
`y` advances by 22 after each line. -/
def zebra_body_lines : List Item → Int → List LabelLine
  | [], _ => []
  | item :: rest, y =>
      ⟨y, toString item.quantity ++ " x " ++ item.name⟩
        :: zebra_body_lines rest (y + 22)

/-- Label body of `print_zebra_label`: lines start at `y = 80`. -/
def print_zebra_label_lines (items : List Item) : List LabelLine :=
  zebra_body_lines items 80

/-- Full ZPL text of one body line (the format string on line 563). -/
def zpl_line (l : LabelLine) : String :=
  "^FO40," ++ toString l.y_offset ++ "^FB525,3,0,L,0^ADN^FD"
    ++ l.text ++ "^FS\n"

/-- The `zpl_body` string accumulated by the loop. -/
def zpl_body (items : List Item) : String :=
  String.join ((print_zebra_label_lines items).map zpl_line)

/-- Three-item list used to exhibit concrete label output. -/
def labelDemoItems : List Item :=
  [⟨1, "hammer", 2, none, none⟩, ⟨2, "saw", 1, none, none⟩,
    ⟨3, "nail", 5, none, none⟩]

/-! ## Helper lemmas -/

theorem mem_dropWhile_of_not (p : Char → Bool) (l : List Char) (x : Char)
    (hx : x ∈ l) (hpx : ¬ p x) : x ∈ l.dropWhile p := by
  induction l with
  | nil => cases hx
  | cons a t ih =>
      cases hpa : p a with
      | true =>
          simp only [List.dropWhile, hpa]
          rcases List.mem_cons.mp hx with h | h
          · subst h; exact absurd hpa hpx
          · exact ih h
      | false =>
          simp only [List.dropWhile, hpa]
          exact hx

theorem rust_trim_ne_empty (s : String)
    (h : ∃ c ∈ s.data, ¬ c.isWhitespace) : rust_trim s ≠ "" := by
  obtain ⟨c, hc, hnc⟩ := h
  have h1 : c ∈ s.data.dropWhile Char.isWhitespace :=
    mem_dropWhile_of_not _ _ _ hc hnc
  have h2 : c ∈ (s.data.dropWhile Char.isWhitespace).reverse.dropWhile
      Char.isWhitespace :=
    mem_dropWhile_of_not _ _ _ (List.mem_reverse.mpr h1) hnc
  have h3 : c ∈ (rust_trim s).data := List.mem_reverse.mpr h2
  intro he
  rw [he] at h3
  have : (("" : String)).data = [] := rfl
  rw [this] at h3
  cases h3

theorem insertOrIgnoreContainer_items (db : Db) (n : String) :
    (insertOrIgnoreContainer db n).items = db.items := by
  unfold insertOrIgnoreContainer
  split <;> rfl

theorem choose_container_items (db : Db) (sel : Option Int)
    (cn : Option String) : ((choose_container db sel cn).1).items = db.items := by
  cases hn : normalize_optional cn with
  | some n =>
      simp only [choose_container, hn]
      cases hl : lookupIdByName (insertOrIgnoreContainer db n).containers n <;>
        simp [hl, insertOrIgnoreContainer_items]
  | none =>
      cases sel with
      | some id =>
          simp only [choose_container, hn]
          cases hl : lookupNameById db.containers id <;> simp [hl]
      | none => simp [choose_container, hn]

theorem countNamed_append (l1 l2 : List ContainerRow) (n : String) :
    countNamed (l1 ++ l2) n = countNamed l1 n + countNamed l2 n := by
  induction l1 with
  | nil => simp [countNamed]
  | cons a t ih => simp [countNamed, ih, Nat.add_assoc]

theorem countNamed_eq_zero (rows : List ContainerRow) (n : String)
    (h : ∀ c ∈ rows, c.name ≠ n) : countNamed rows n = 0 := by
  induction rows with
  | nil => rfl
  | cons a t ih =>
      simp only [countNamed]
      rw [if_neg (h a (by simp))]
      simp [ih fun c hc => h c (by simp [hc])]

theorem countNamed_pos (rows : List ContainerRow) (n : String)
    (c : ContainerRow) (hc : c ∈ rows) (hn : c.name = n) :
    1 ≤ countNamed rows n := by
  induction rows with
  | nil => cases hc
  | cons a t ih =>
      simp only [countNamed]
      rcases List.mem_cons.mp hc with rfl | hct
      · rw [if_pos hn]; omega
      · have := ih hct; omega

theorem lookupIdByName_some (rows : List ContainerRow) (n : String)
    (h : ∃ c ∈ rows, c.name = n) : ∃ id, lookupIdByName rows n = some id := by
  induction rows with
  | nil => simp at h
  | cons a t ih =>
      by_cases ha : a.name = n
      · exact ⟨a.id, by simp [lookupIdByName, ha]⟩
      · obtain ⟨c, hc, hcn⟩ := h
        rcases List.mem_cons.mp hc with rfl | hct
        · exact absurd hcn ha
        · obtain ⟨id, hid⟩ := ih ⟨c, hct, hcn⟩
          exact ⟨id, by simp [lookupIdByName, ha, hid]⟩

theorem lookupIdByName_unique (rows : List ContainerRow) (n : String)
    (c : ContainerRow) (huniq : countNamed rows n ≤ 1) (hc : c ∈ rows)
    (hn : c.name = n) : lookupIdByName rows n = some c.id := by
  induction rows with
  | nil => cases hc
  | cons a t ih =>
      by_cases ha : a.name = n
      · have ht0 : countNamed t n = 0 := by
          simp only [countNamed, if_pos ha] at huniq; omega
        rcases List.mem_cons.mp hc with rfl | hct
        · simp [lookupIdByName, ha]
        · have := countNamed_pos t n c hct hn
          omega
      · rcases List.mem_cons.mp hc with rfl | hct
        · exact absurd hn ha
        · have huniq2 : countNamed t n ≤ 1 := by
            simp only [countNamed, if_neg ha] at huniq; omega
          simp [lookupIdByName, ha, ih huniq2 hct]

theorem insertOrIgnore_exists (db : Db) (n : String) :
    ∃ c ∈ (insertOrIgnoreContainer db n).containers, c.name = n := by
  unfold insertOrIgnoreContainer
  split
  · next h => exact h
  · exact ⟨⟨db.nextContainerId, n, none⟩, by simp, rfl⟩

theorem insertOrIgnore_of_exists (db : Db) (n : String)
    (h : ∃ c ∈ db.containers, c.name = n) : insertOrIgnoreContainer db n = db := by
  unfold insertOrIgnoreContainer
  rw [if_pos h]

theorem insertOrIgnore_count (db : Db) (n : String)
    (h : countNamed db.containers n ≤ 1) :
    countNamed (insertOrIgnoreContainer db n).containers n = 1 := by
  unfold insertOrIgnoreContainer
  split
  · next hex =>
      obtain ⟨c, hc, hcn⟩ := hex
      have := countNamed_pos db.containers n c hc hcn
      omega
  · next hnex =>
      push_neg at hnex
      show countNamed (db.containers ++ [⟨db.nextContainerId, n, none⟩]) n = 1
      rw [countNamed_append, countNamed_eq_zero db.containers n hnex]
      simp [countNamed]

theorem lookupIdByName_insertOrIgnore (db : Db) (n : String) :
    ∃ id, lookupIdByName (insertOrIgnoreContainer db n).containers n = some id :=
  lookupIdByName_some _ _ (insertOrIgnore_exists db n)

theorem save_items_tx_aux_mem (items : List Item) :
    ∀ (db : Db) (idx : Nat) (failAt : Option Nat) (row : Item),
      row ∈ ((save_items_tx_aux db items idx failAt).1).items →
      row ∈ db.items ∨ ∃ it ∈ items, row.name = it.name ∧
        row.quantity = it.quantity ∧ row.container_id = it.container_id ∧
        row.location = it.location := by
  induction items with
  | nil =>
      intro db idx failAt row h
      exact .inl h
  | cons a t ih =>
      intro db idx failAt row h
      simp only [save_items_tx_aux] at h
      by_cases hf : failAt = some idx
      · rw [if_pos hf] at h
        exact .inl h
      · rw [if_neg hf] at h
        rcases ih (insertItem db a) (idx + 1) failAt row h with h1 | ⟨it, hit, he⟩
        · rcases List.mem_append.mp h1 with h2 | h2
          · exact .inl h2
          · right
            refine ⟨a, List.mem_cons_self a t, ?_⟩
            have hr : row = { a with id := db.nextItemId } := by simpa using h2
            subst hr
            exact ⟨rfl, rfl, rfl, rfl⟩
        · exact .inr ⟨it, List.mem_cons_of_mem a hit, he⟩

theorem save_items_tx_aux_ok (items : List Item) :
    ∀ (db : Db) (idx : Nat),
      ((save_items_tx_aux db items idx none).1).items.length =
        db.items.length + items.length ∧
      (save_items_tx_aux db items idx none).2 = .ok () := by
  induction items with
  | nil =>
      intro db idx
      exact ⟨by simp [save_items_tx_aux], rfl⟩
  | cons a t ih =>
      intro db idx
      simp only [save_items_tx_aux]
      rw [if_neg (by simp)]
      obtain ⟨h1, h2⟩ := ih (insertItem db a) (idx + 1)
      refine ⟨?_, h2⟩
      rw [h1]
      show (db.items ++ [{ a with id := db.nextItemId }]).length + t.length =
        db.items.length + (a :: t).length
      simp
      omega

theorem zebra_body_lines_length (items : List Item) :
    ∀ y : Int, (zebra_body_lines items y).length = items.length := by
  induction items with
  | nil => intro y; rfl
  | cons a t ih => intro y; simp [zebra_body_lines, ih]

theorem zebra_body_lines_get (items : List Item) :
    ∀ (y : Int) (i : Nat) (it : Item), items[i]? = some it →
      (zebra_body_lines items y)[i]? =
        some ⟨y + 22 * i, toString it.quantity ++ " x " ++ it.name⟩ := by
  induction items with
  | nil => intro y i it h; simp at h
  | cons a t ih =>
      intro y i it h
      cases i with
      | zero =>
          simp only [List.getElem?_cons_zero, Option.some_inj] at h
          subst h
          simp [zebra_body_lines]
      | succ m =>
          simp only [List.getElem?_cons_succ] at h
          have hrec := ih (y + 22) m it h
          simp only [zebra_body_lines, List.getElem?_cons_succ]
          rw [hrec]
          have harith : y + 22 + 22 * (m : Int) = y + 22 * ((m + 1 : Nat) : Int) := by
            push_cast
            ring
          rw [harith]

/-! ## Claim theorems -/

/-- Claim C3 (confirmed): whenever the structuring capability call fails
(unavailable, timeout, or output that fails to parse into the required
shape), extraction does not propagate the failure and returns exactly
one `ParsedItem` whose name is the trimmed raw text and whose quantity
is 1. -/
theorem C3_extract_fallback (raw : String) :
    extract raw LlmOutcome.failure =
      [{ name := rust_trim raw, quantity := 1 }] := rfl

/-- Claim C6 (confirmed): with a non-empty new container name present,
resolution returns the id of the container carrying that name (creating
the row if absent — the id is readable back from the resulting table),
and the outcome is independent of the selected id, which is never
consulted: the new name strictly takes precedence. -/
theorem C6_new_name_precedence (db : Db) (sel : Int) (new n : String)
    (hn : normalize_optional (some new) = some n) :
    ∃ id,
      (choose_container db (some sel) (some new)).2 = .ok (some id, some n) ∧
      lookupIdByName ((choose_container db (some sel) (some new)).1).containers n
        = some id ∧
      ∀ sel2 : Option Int,
        choose_container db sel2 (some new) =
          choose_container db (some sel) (some new) := by
  obtain ⟨id, hid⟩ := lookupIdByName_insertOrIgnore db n
  refine ⟨id, ?_, ?_, ?_⟩
  · simp [choose_container, hn, hid]
  · simp [choose_container, hn, hid]
  · intro sel2
    simp [choose_container, hn]

/-- Concrete instance of C6: a new name "Foo" next to selected id 42 on
an empty database resolves to the id of "Foo", never 42. -/
theorem C6_new_name_precedence_witness :
    ∃ id,
      (choose_container emptyDb (some 42) (some "Foo")).2 = .ok (some id, some "Foo") ∧
      lookupIdByName ((choose_container emptyDb (some 42) (some "Foo")).1).containers "Foo"
        = some id ∧
      ∀ sel2 : Option Int,
        choose_container emptyDb sel2 (some "Foo") =
          choose_container emptyDb (some 42) (some "Foo") :=
  C6_new_name_precedence emptyDb 42 "Foo" "Foo" (by decide)

/-- Claim C7 (confirmed): resolving the same non-empty new name twice in
sequence returns the same container id both times, the second call does
not change the database, the containers table afterwards holds exactly
one row with that name (given the UNIQUE constraint held before the
call), and a pre-existing row's id is the one returned. -/
theorem C7_idempotent_creation (db : Db) (s n : String)
    (hn : normalize_optional (some s) = some n)
    (huniq : countNamed db.containers n ≤ 1) :
    ∃ id,
      (choose_container db none (some s)).2 = .ok (some id, some n) ∧
      (choose_container ((choose_container db none (some s)).1) none (some s)).2
        = .ok (some id, some n) ∧
      (choose_container ((choose_container db none (some s)).1) none (some s)).1
        = (choose_container db none (some s)).1 ∧
      countNamed ((choose_container db none (some s)).1).containers n = 1 ∧
      ∀ c ∈ db.containers, c.name = n → id = c.id := by
  obtain ⟨id, hid⟩ := lookupIdByName_insertOrIgnore db n
  have hfix : insertOrIgnoreContainer (insertOrIgnoreContainer db n) n =
      insertOrIgnoreContainer db n :=
    insertOrIgnore_of_exists _ n (insertOrIgnore_exists db n)
  have h1 : (choose_container db none (some s)).1 = insertOrIgnoreContainer db n := by
    simp [choose_container, hn, hid]
  refine ⟨id, ?_, ?_, ?_, ?_, ?_⟩
  · simp [choose_container, hn, hid]
  · rw [h1]
    simp [choose_container, hn, hfix, hid]
  · rw [h1]
    simp [choose_container, hn, hfix, hid]
  · rw [h1]
    exact insertOrIgnore_count db n huniq
  · intro c hc hcn
    have hdb : insertOrIgnoreContainer db n = db :=
      insertOrIgnore_of_exists db n ⟨c, hc, hcn⟩
    have hu := lookupIdByName_unique db.containers n c huniq hc hcn
    rw [hdb] at hid
    rw [hu] at hid
    exact (Option.some_inj.mp hid).symm

/-- Concrete instance of C7: resolving new name "Spring 1" twice on an
empty database. -/
theorem C7_idempotent_creation_witness :
    ∃ id,
      (choose_container emptyDb none (some "Spring 1")).2 = .ok (some id, some "Spring 1") ∧
      (choose_container ((choose_container emptyDb none (some "Spring 1")).1) none
          (some "Spring 1")).2 = .ok (some id, some "Spring 1") ∧
      (choose_container ((choose_container emptyDb none (some "Spring 1")).1) none
          (some "Spring 1")).1 = (choose_container emptyDb none (some "Spring 1")).1 ∧
      countNamed ((choose_container emptyDb none (some "Spring 1")).1).containers
        "Spring 1" = 1 ∧
      ∀ c ∈ emptyDb.containers, c.name = "Spring 1" → id = c.id :=
  C7_idempotent_creation emptyDb "Spring 1" "Spring 1" (by decide) (by decide)

/-- Claim C8 (confirmed): with no new container name and a selected id
absent from the containers table, resolution fails with
`QueryReturnedNoRows`; `handle_submit` logs the failure (its warning
branch fires), proceeds with no container id and no container name,
still assembles every extracted item, and — when no insert fails —
still persists all of them: the submission is not aborted. -/
theorem C8_missing_selected_id (db : Db) (input : InputForm)
    (llm : LlmOutcome) (failAt : Option Nat) (sid : Int)
    (hnew : normalize_optional input.container_new = none)
    (hsel : parse_container_select input.container_select = some sid)
    (hmiss : lookupNameById db.containers sid = none) :
    (choose_container db (some sid) input.container_new).2 =
      .error DbError.queryReturnedNoRows ∧
    (handle_submit db input llm failAt).resolveFailed = true ∧
    (handle_submit db input llm failAt).container_name = none ∧
    (handle_submit db input llm failAt).items =
      assemble (extract input.text llm) none (normalize_optional input.location) ∧
    ((handle_submit db input llm none).db).items.length =
      db.items.length + (extract input.text llm).length := by
  have hcc : choose_container db (some sid) input.container_new =
      (db, .error DbError.queryReturnedNoRows) := by
    simp [choose_container, hnew, hmiss]
  refine ⟨by rw [hcc], ?_, ?_, ?_, ?_⟩
  · simp [handle_submit, hsel, hcc, resolve_or_loose]
  · simp [handle_submit, hsel, hcc, resolve_or_loose]
  · simp [handle_submit, hsel, hcc, resolve_or_loose]
  · have hok := (save_items_tx_aux_ok
      (assemble (extract input.text llm) none (normalize_optional input.location))
      db 0).1
    simp only [handle_submit, hsel, hcc, resolve_or_loose, save_items_tx]
    rw [hok]
    simp [assemble]

/-- Concrete instance of C8: selected id 7 on an empty database, no new
name; the resolver errors, the warning fires, the fallback-extracted
item is stored loose. -/
theorem C8_missing_selected_id_witness :
    (choose_container emptyDb (some 7)
        (InputForm.mk "hammer" (some "7") none (some " Shelf A ")).container_new).2 =
      .error DbError.queryReturnedNoRows ∧
    (handle_submit emptyDb (InputForm.mk "hammer" (some "7") none (some " Shelf A "))
        LlmOutcome.failure none).resolveFailed = true ∧
    (handle_submit emptyDb (InputForm.mk "hammer" (some "7") none (some " Shelf A "))
        LlmOutcome.failure none).container_name = none ∧
    (handle_submit emptyDb (InputForm.mk "hammer" (some "7") none (some " Shelf A "))
        LlmOutcome.failure none).items =
      assemble (extract (InputForm.mk "hammer" (some "7") none (some " Shelf A ")).text
          LlmOutcome.failure) none
        (normalize_optional (InputForm.mk "hammer" (some "7") none (some " Shelf A ")).location) ∧
    ((handle_submit emptyDb (InputForm.mk "hammer" (some "7") none (some " Shelf A "))
        LlmOutcome.failure none).db).items.length =
      emptyDb.items.length +
        (extract (InputForm.mk "hammer" (some "7") none (some " Shelf A ")).text
          LlmOutcome.failure).length :=
  C8_missing_selected_id emptyDb (InputForm.mk "hammer" (some "7") none (some " Shelf A "))
    LlmOutcome.failure none 7 (by decide) (by decide) (by decide)

/-- Claim C9 (confirmed): for a non-empty item list the label body has
exactly one line record per item, in input order, with text
quantity-" x "-name, and y offsets 80, 102, 124, ...: strictly
increasing by the constant step 22 from the fixed top offset 80. -/
theorem C9_label_line_spacing (items : List Item) (h : items ≠ []) :
    print_zebra_label_lines items ≠ [] ∧
    (print_zebra_label_lines items).length = items.length ∧
    ∀ (i : Nat) (it : Item), items[i]? = some it →
      (print_zebra_label_lines items)[i]? =
        some ⟨80 + 22 * i, toString it.quantity ++ " x " ++ it.name⟩ := by
  refine ⟨?_, zebra_body_lines_length items 80,
    fun i it hit => zebra_body_lines_get items 80 i it hit⟩
  intro hempty
  apply h
  have hlen := zebra_body_lines_length items 80
  rw [show print_zebra_label_lines items = zebra_body_lines items 80 from rfl] at hempty
  rw [hempty] at hlen
  exact List.length_eq_zero.mp hlen.symm

/-- Concrete instance of C9 on a three-item list. -/
theorem C9_label_line_spacing_witness :
    print_zebra_label_lines labelDemoItems ≠ [] ∧
    (print_zebra_label_lines labelDemoItems).length = labelDemoItems.length ∧
    ∀ (i : Nat) (it : Item), labelDemoItems[i]? = some it →
      (print_zebra_label_lines labelDemoItems)[i]? =
        some ⟨80 + 22 * i, toString it.quantity ++ " x " ++ it.name⟩ :=
  C9_label_line_spacing labelDemoItems (by decide)

/-- Claim C1 (code_bug): main.rs logs a failed item insert and still
runs `tx.commit()` (lines 278-282), so a failed submission does NOT
leave storage unchanged.  Concretely: on an empty database, a
submission creating container "Bin" with two extracted items whose
second insert fails ends with the container row and the first item row
committed and visible. -/
theorem C1_failed_insert_still_commits :
    (handle_submit emptyDb (InputForm.mk "a, b" none (some "Bin") none)
        (LlmOutcome.success [⟨"a", 1⟩, ⟨"b", 2⟩]) (some 1)).saveFailed = true ∧
    (handle_submit emptyDb (InputForm.mk "a, b" none (some "Bin") none)
        (LlmOutcome.success [⟨"a", 1⟩, ⟨"b", 2⟩]) (some 1)).db.containers =
      [⟨1, "Bin", none⟩] ∧
    (handle_submit emptyDb (InputForm.mk "a, b" none (some "Bin") none)
        (LlmOutcome.success [⟨"a", 1⟩, ⟨"b", 2⟩]) (some 1)).db.items =
      [⟨1, "a", 1, some 1, none⟩] :=
  ⟨rfl, rfl, rfl⟩

/-- Claim C2 counterexample: when the only item's insert fails, the
response body handed to the caller is byte-for-byte the body of the
successful run (titled "Inventory Saved") — the result does not
indicate that persistence failed. -/
theorem C2_counterexample_silent_success :
    (handle_submit emptyDb (InputForm.mk "hammer" none none none)
        (LlmOutcome.success [⟨"hammer", 1⟩]) (some 0)).saveFailed = true ∧
    (handle_submit emptyDb (InputForm.mk "hammer" none none none)
        (LlmOutcome.success [⟨"hammer", 1⟩]) (some 0)).html =
      (handle_submit emptyDb (InputForm.mk "hammer" none none none)
        (LlmOutcome.success [⟨"hammer", 1⟩]) none).html :=
  ⟨rfl, rfl⟩

/-- Claim C2 (corrected): a persist failure is only logged server-side;
the caller-visible response is computed from the assembled in-memory
items alone (which are still shown), and is identical whether or not
any insert failed — persistence failure is never surfaced to the
caller. -/
theorem C2_response_independent_of_persistence (db : Db) (input : InputForm)
    (llm : LlmOutcome) (failAt : Option Nat) :
    (handle_submit db input llm failAt).html =
      (handle_submit db input llm none).html := rfl

/-- Claim C4 counterexample: a well-formed capability response with
quantity 0 (and likewise one with an empty item list) is returned by
extraction unvalidated, so the claimed quantity ≥ 1 and non-emptiness
guarantees fail for capability-backed extraction. -/
theorem C4_counterexample_quantity_zero :
    extract "hammer" (LlmOutcome.success [⟨"hammer", 0⟩]) = [⟨"hammer", 0⟩] ∧
    ¬ (∀ pi ∈ extract "hammer" (LlmOutcome.success [⟨"hammer", 0⟩]),
        1 ≤ pi.quantity) ∧
    extract "hammer" (LlmOutcome.success []) = [] := by
  refine ⟨rfl, ?_, rfl⟩
  decide

/-- Claim C4 (corrected): the guarantee holds on the fallback path —
for raw text with at least one non-whitespace character, capability
failure yields exactly one item with quantity 1 and a non-empty name —
while capability-backed extraction returns the response's items
verbatim, with no validation of quantities or names. -/
theorem C4_extraction_guarantees (raw : String)
    (h : ∃ c ∈ raw.data, ¬ c.isWhitespace) :
    extract raw LlmOutcome.failure = [⟨rust_trim raw, 1⟩] ∧
    extract raw LlmOutcome.failure ≠ [] ∧
    (∀ pi ∈ extract raw LlmOutcome.failure, 1 ≤ pi.quantity ∧ pi.name ≠ "") ∧
    (∀ items : List ParsedItem, extract raw (LlmOutcome.success items) = items) := by
  refine ⟨rfl, by simp [extract, llm_parse], ?_, fun items => rfl⟩
  intro pi hpi
  have hone : pi = ⟨rust_trim raw, 1⟩ := by
    simpa [extract, llm_parse] using hpi
  subst hone
  exact ⟨le_refl 1, rust_trim_ne_empty raw h⟩

/-- Concrete instance of the amended C4 at raw text " 3 boxes ". -/
theorem C4_extraction_guarantees_witness :
    extract " 3 boxes " LlmOutcome.failure = [⟨rust_trim " 3 boxes ", 1⟩] ∧
    extract " 3 boxes " LlmOutcome.failure ≠ [] ∧
    (∀ pi ∈ extract " 3 boxes " LlmOutcome.failure, 1 ≤ pi.quantity ∧ pi.name ≠ "") ∧
    (∀ items : List ParsedItem,
      extract " 3 boxes " (LlmOutcome.success items) = items) :=
  C4_extraction_guarantees " 3 boxes " (by decide)

/-- Claim C5 counterexample: a capability response with quantity 0 and
an empty name is persisted verbatim — storage ends up holding a row
with quantity < 1 and an empty name. -/
theorem C5_counterexample_persists_invalid_row :
    (handle_submit emptyDb (InputForm.mk "stuff" none none none)
        (LlmOutcome.success [⟨"", 0⟩]) none).db.items =
      [⟨1, "", 0, none, none⟩] := rfl

/-- Claim C5 (corrected): persisted rows copy the extractor's output
with no further validation — every row a submission adds to storage
carries the name and the quantity of some extracted item, so quantity
≥ 1 and non-empty names hold exactly as far as extraction provides
them (fallback quantities are always 1), and no more. -/
theorem C5_persisted_rows_from_extraction (db : Db) (input : InputForm)
    (llm : LlmOutcome) (failAt : Option Nat) (row : Item)
    (hrow : row ∈ (handle_submit db input llm failAt).db.items)
    (hold : row ∉ db.items) :
    ∃ pi ∈ extract input.text llm,
      row.name = pi.name ∧ row.quantity = pi.quantity := by
  have hdb : (handle_submit db input llm failAt).db =
      (save_items_tx
        (choose_container db (parse_container_select input.container_select)
          input.container_new).1
        (assemble (extract input.text llm)
          (resolve_or_loose (choose_container db
            (parse_container_select input.container_select) input.container_new).2).1
          (normalize_optional input.location)) failAt).1 := rfl
  rw [hdb] at hrow
  rcases save_items_tx_aux_mem _ _ 0 failAt row hrow with h1 | ⟨it, hit, hname, hq, _, _⟩
  · rw [choose_container_items] at h1
    exact absurd h1 hold
  · obtain ⟨pi, hpi, rfl⟩ := List.mem_map.mp hit
    exact ⟨pi, hpi, hname, hq⟩

/-- Concrete instance of the amended C5: the one row stored by a
fallback submission carries the fallback item's name and quantity. -/
theorem C5_persisted_rows_from_extraction_witness :
    ∃ pi ∈ extract "hammer" LlmOutcome.failure,
      (Item.mk 1 "hammer" 1 none none).name = pi.name ∧
      (Item.mk 1 "hammer" 1 none none).quantity = pi.quantity :=
  C5_persisted_rows_from_extraction emptyDb (InputForm.mk "hammer" none none none)
    LlmOutcome.failure none (Item.mk 1 "hammer" 1 none none) (by decide) (by decide)

/-- Claim C10 counterexample: when the non-parsing selection string is
accompanied by a new container name, the submission's items are NOT
stored loose — they are attached to the newly created container — so
the claim's unconditional "stored as loose items" fails (while no
resolution-failure warning fires, as the claim says). -/
theorem C10_counterexample_new_name_present :
    (handle_submit emptyDb (InputForm.mk "hammer" (some "abc") (some "Bin") none)
        LlmOutcome.failure none).db.items = [⟨1, "hammer", 1, some 1, none⟩] ∧
    (handle_submit emptyDb (InputForm.mk "hammer" (some "abc") (some "Bin") none)
        LlmOutcome.failure none).resolveFailed = false :=
  ⟨rfl, rfl⟩

/-- Claim C10 (corrected): a non-empty selection string that does not
parse as an integer id is silently treated as absent before resolution
and can never fire the resolution-failure warning; when additionally no
new container name is supplied, the submission's items — the assembled
ones and every row added to storage — are loose, with no container. -/
theorem C10_invalid_selection_silently_absent (db : Db) (input : InputForm)
    (llm : LlmOutcome) (failAt : Option Nat) (s : String)
    (hs : input.container_select = some s)
    (hne : rust_trim s ≠ "")
    (hnp : parse_i64 (rust_trim s) = none) :
    parse_container_select input.container_select = none ∧
    (handle_submit db input llm failAt).resolveFailed = false ∧
    (normalize_optional input.container_new = none →
      (∀ it ∈ (handle_submit db input llm failAt).items, it.container_id = none) ∧
      (∀ row ∈ (handle_submit db input llm failAt).db.items,
        row ∉ db.items → row.container_id = none)) := by
  have hps : parse_container_select input.container_select = none := by
    simp [parse_container_select, hs, hne, hnp]
  refine ⟨hps, ?_, ?_⟩
  · cases hn : normalize_optional input.container_new with
    | some n =>
        obtain ⟨id, hid⟩ := lookupIdByName_insertOrIgnore db n
        simp [handle_submit, hps, choose_container, hn, hid, resolve_or_loose]
    | none => simp [handle_submit, hps, choose_container, hn, resolve_or_loose]
  · intro hnew
    have hcc : choose_container db none input.container_new = (db, .ok (none, none)) := by
      simp [choose_container, hnew]
    constructor
    · intro it hit
      have hitems : (handle_submit db input llm failAt).items =
          assemble (extract input.text llm) none (normalize_optional input.location) := by
        simp [handle_submit, hps, hcc, resolve_or_loose]
      rw [hitems] at hit
      obtain ⟨pi, hpi, rfl⟩ := List.mem_map.mp hit
      rfl
    · intro row hrow hold
      have hdb : (handle_submit db input llm failAt).db =
          (save_items_tx db (assemble (extract input.text llm) none
            (normalize_optional input.location)) failAt).1 := by
        simp [handle_submit, hps, hcc, resolve_or_loose, save_items_tx]
      rw [hdb] at hrow
      rcases save_items_tx_aux_mem _ db 0 failAt row hrow with h1 | ⟨it, hit, _, _, hcid, _⟩
      · exact absurd h1 hold
      · obtain ⟨pi, hpi, rfl⟩ := List.mem_map.mp hit
        exact hcid

/-- Concrete instance of the amended C10: selection "abc" with no new
name stores the fallback item loose and fires no warning. -/
theorem C10_invalid_selection_silently_absent_witness :
    parse_container_select (InputForm.mk "hammer" (some "abc") none none).container_select
      = none ∧
    (handle_submit emptyDb (InputForm.mk "hammer" (some "abc") none none)
        LlmOutcome.failure none).resolveFailed = false ∧
    (normalize_optional (InputForm.mk "hammer" (some "abc") none none).container_new = none →
      (∀ it ∈ (handle_submit emptyDb (InputForm.mk "hammer" (some "abc") none none)
          LlmOutcome.failure none).items, it.container_id = none) ∧
      (∀ row ∈ (handle_submit emptyDb (InputForm.mk "hammer" (some "abc") none none)
          LlmOutcome.failure none).db.items,
        row ∉ emptyDb.items → row.container_id = none)) :=
  C10_invalid_selection_silently_absent emptyDb
    (InputForm.mk "hammer" (some "abc") none none) LlmOutcome.failure none "abc"
    (by decide) (by decide) (by decide)
